import Mathlib

/-!
Verification of the Kor file viewer parsing and normalization pipeline
(`src/main.py` and the upload handler of `src/app.py`).

The Python code is shallowly embedded: lines are `List String`, the
pandas DataFrame is a column-name list plus rows of cells, fallible
pandas operations return `Except String`, and the pandas timestamp
grammar (a third-party library) is a parameter `p : String → Option Nat`.
-/

/-! ## Python string primitives -/

/-- Characters removed by Python `str.strip()`. -/
def pyIsSpace (c : Char) : Bool :=
  c = ' ' || c = '\t' || c = '\n' || c = '\r' || c = '\x0b' || c = '\x0c'

/-- Python `str.strip()`. -/
def pyStrip (s : String) : String :=
  (((s.data.dropWhile pyIsSpace).reverse.dropWhile pyIsSpace).reverse).asString

/-- Python `s.startswith(p)`. -/
def pyStartsWith (s p : String) : Bool := p.data.isPrefixOf s.data

/-- Python `sub in s` (substring containment). -/
def pyContains (s sub : String) : Bool :=
  s.data.tails.any (fun t => sub.data.isPrefixOf t)

/-- Worker for Python `str.split(sep)`: first piece and remaining pieces. -/
def pySplitAux (sep : Char) : List Char → List Char × List (List Char)
  | [] => ([], [])
  | c :: cs =>
    let r := pySplitAux sep cs
    if c = sep then ([], r.1 :: r.2) else (c :: r.1, r.2)

/-- Character-list version of Python `str.split(sep)`. -/
def pySplitChars (sep : Char) (cs : List Char) : List (List Char) :=
  (pySplitAux sep cs).1 :: (pySplitAux sep cs).2

/-- Python `s.split(sep)` for a single-character separator. -/
def pySplit (s : String) (sep : Char) : List String :=
  (pySplitChars sep s.data).map List.asString

/-! ## Cells and DataFrames

A pandas DataFrame is modelled as a list of column names plus rows of
cells in column order.  A cell is a null (`NaN`/`NaT`), a string, or a
parsed timestamp. -/

inductive Cell where
  | null : Cell
  | str : String → Cell
  | dt : Nat → Cell
deriving DecidableEq, Repr

structure DataFrame where
  columns : List String
  rows : List (List Cell)
deriving DecidableEq, Repr

/-- Rows agree with the column list in width. -/
def DataFrame.WF (df : DataFrame) : Prop :=
  ∀ r ∈ df.rows, r.length = df.columns.length

/-- The values of the first column named `name`, if present. -/
def DataFrame.getCol (df : DataFrame) (name : String) : Option (List Cell) :=
  (df.columns.findIdx? (fun c => c = name)).map
    (fun i => df.rows.map (fun r => r.getD i Cell.null))

/-! ## Normalizer (`clean_kor_measurements`, src/main.py lines 7-49) -/

/-- `rename_columns` from src/main.py lines 7-17. -/
def rename_columns (col : String) : String :=
  if pyContains col ("LATITUDE") then "Latitude"
  else if pyContains col ("LONGITUDE") then "Longitude"
  else if pyStartsWith col ("TIME ") then "Time"
  else if pyStartsWith col ("DATE ") then "Date"
  else (col.data.map (fun c => if c = ' ' then '_' else c)).asString

/-- `df.rename(columns=rename_columns)`: relabels columns, keeps the data. -/
def pd_rename (df : DataFrame) : DataFrame :=
  ⟨df.columns.map rename_columns, df.rows⟩

/-- `df.query("SERIAL_NUMBER != 'TBD'")`: raises if the column is absent,
otherwise keeps the rows whose value at that column differs from `"TBD"`. -/
def pd_query_serial_ne_tbd (df : DataFrame) : Except String DataFrame :=
  match df.columns.findIdx? (fun c => c = "SERIAL_NUMBER") with
  | none => Except.error ("UndefinedVariableError: SERIAL_NUMBER")
  | some i =>
      Except.ok ⟨df.columns, df.rows.filter (fun r => r.getD i Cell.null ≠ Cell.str "TBD")⟩

/-- Element-wise `x.Date + " " + x.Time`: pandas propagates `NaN` through
string concatenation. -/
def cellConcatSpace : Cell → Cell → Cell
  | Cell.str a, Cell.str b => Cell.str (a ++ " " ++ b)
  | _, _ => Cell.null

/-- One cell under `pd.to_datetime` with the default `errors="raise"`:
`NaN` becomes `NaT`, a string must parse or the call raises. -/
def to_datetime_cell (p : String → Option Nat) : Cell → Except String Cell
  | Cell.null => Except.ok Cell.null
  | Cell.str s =>
      match p s with
      | some t => Except.ok (Cell.dt t)
      | none => Except.error ("to_datetime: could not parse " ++ s)
  | Cell.dt t => Except.ok (Cell.dt t)

/-- `pd.to_datetime` over a column (default `errors="raise"`). -/
def pd_to_datetime (p : String → Option Nat) (cs : List Cell) : Except String (List Cell) :=
  cs.mapM (to_datetime_cell p)

/-- `df.assign(name=vals)`: replaces the column in place when it exists,
otherwise appends it on the right. -/
def pd_assign (df : DataFrame) (name : String) (vals : List Cell) : DataFrame :=
  match df.columns.findIdx? (fun c => c = name) with
  | some i => ⟨df.columns, (df.rows.zip vals).map (fun rv => rv.1.set i rv.2)⟩
  | none => ⟨df.columns ++ [name], (df.rows.zip vals).map (fun rv => rv.1 ++ [rv.2])⟩

/-- `df.drop(columns=names)`: raises when a name is absent. -/
def pd_drop (df : DataFrame) (names : List String) : Except String DataFrame :=
  if names.all (fun n => df.columns.contains n) then
    Except.ok ⟨df.columns.filter (fun c => !names.contains c),
      df.rows.map (fun r =>
        ((df.columns.zip r).filter (fun cv => !names.contains cv.1)).map (fun cv => cv.2))⟩
  else Except.error ("KeyError: drop")

/-- `df.astype({"SERIAL_NUMBER": "category"})`: raises when the column is
absent; the categorical coercion leaves the stored values unchanged. -/
def pd_astype_category (df : DataFrame) (name : String) : Except String DataFrame :=
  if df.columns.contains name then Except.ok df else Except.error ("KeyError: astype")

/-- `df.assign(SITE_NAME=lambda x: x["SITE_NAME"].astype("string"))`:
raises when the column is absent; the string coercion keeps each value. -/
def pd_assign_site_str (df : DataFrame) : Except String DataFrame :=
  match df.getCol "SITE_NAME" with
  | none => Except.error ("KeyError: SITE_NAME")
  | some vs => Except.ok (pd_assign df "SITE_NAME" vs)

/-- The target column order of the final `reindex` (src/main.py lines 36-47):
`Activity_Date_Time` first, then everything else in order, then
`FILE_NAME` and `SITE_NAME`. -/
def reindex_targets (cols : List String) : List String :=
  "Activity_Date_Time" ::
    (cols.filter (fun c =>
      !(["Activity_Date_Time", "FILE_NAME", "SITE_NAME"].contains c))) ++
    ["FILE_NAME", "SITE_NAME"]

/-- `df.reindex(columns=targets)`: a requested column that exists keeps its
values; a requested column that does not exist is created filled with nulls. -/
def pd_reindex_columns (df : DataFrame) (targets : List String) : DataFrame :=
  ⟨targets, df.rows.map (fun r =>
    targets.map (fun c =>
      match df.columns.findIdx? (fun c2 => c2 = c) with
      | some i => r.getD i Cell.null
      | none => Cell.null))⟩

/-- The combined `Date`/`Time` strings fed to `pd.to_datetime`
(src/main.py line 25). -/
def combined_date_time (dc tc : List Cell) : List Cell :=
  (dc.zip tc).map (fun dt2 => cellConcatSpace dt2.1 dt2.2)

/-- `clean_kor_measurements` from src/main.py lines 20-49, with the pandas
timestamp grammar abstracted as `p`. -/
def clean_kor_measurements (p : String → Option Nat) (df : DataFrame) :
    Except String DataFrame :=
  match pd_query_serial_ne_tbd (pd_rename df) with
  | Except.error e => Except.error e
  | Except.ok q =>
    match q.getCol "Date" with
    | none => Except.error ("AttributeError: Date")
    | some dc =>
      match q.getCol "Time" with
      | none => Except.error ("AttributeError: Time")
      | some tc =>
        match pd_to_datetime p (combined_date_time dc tc) with
        | Except.error e => Except.error e
        | Except.ok adt =>
          let a := pd_assign q ("Activity_Date_Time") adt
          match pd_drop a ["Date", "Time"] with
          | Except.error e => Except.error e
          | Except.ok d =>
            match pd_astype_category d ("SERIAL_NUMBER") with
            | Except.error e => Except.error e
            | Except.ok c =>
              match pd_assign_site_str c with
              | Except.error e => Except.error e
              | Except.ok s =>
                Except.ok (pd_reindex_columns s (reindex_targets s.columns))

/-! ## Block segmenter (`parse_kor_measurements`, src/main.py lines 78-125) -/

structure Block where
  serial : Option String
  headers : Option String
  data_lines : List String
deriving DecidableEq, Repr

def emptyBlock : Block := ⟨none, none, []⟩

/-- Python truthiness of `current_block["headers"]`. -/
def truthyHeaders : Option String → Bool
  | none => false
  | some h => h ≠ ""

/-- `if current_block["headers"] and current_block["data_lines"]`. -/
def qualifies (b : Block) : Bool :=
  truthyHeaders b.headers && !b.data_lines.isEmpty

/-- Serial extraction from a marker line's fields (src/main.py lines 100-105):
`for i in range(4, min(7, len(fields)))`, first field non-empty after strip. -/
def extract_serial (fields : List String) : Option String :=
  (List.range' 4 (min 7 fields.length - 4)).findSome? (fun i =>
    let v := pyStrip (fields.getD i "")
    if v ≠ "" then some v else none)

structure SegState where
  blocks : List Block
  cur : Block
deriving DecidableEq, Repr

/-- One iteration of the line loop of src/main.py lines 81-121. -/
def processLine (st : SegState) (rawLine : String) : SegState :=
  let line := pyStrip rawLine
  if line = "" then st
  else if pyStartsWith line ("MEAN VALUE:") || pyStartsWith line ("STANDARD DEVIATION:") then st
  else if pyStartsWith line ("SENSOR SERIAL NUMBER:") then
    let blocks := if qualifies st.cur then st.blocks ++ [st.cur] else st.blocks
    let fields := pySplit line ','
    ⟨blocks, ⟨extract_serial fields, none, []⟩⟩
  else if pyContains line ("TIME (HH:MM:SS)") then
    ⟨st.blocks, ⟨st.cur.serial, some (pyStrip line), st.cur.data_lines⟩⟩
  else if pyContains line (",") &&
      !(pyStartsWith line ("sep=") || pyStartsWith line ("Kor MEASUREMENT") ||
        pyStartsWith line ("FILE CREATED:")) &&
      st.cur.serial.isSome then
    if (pySplit line ',').length > 9 then
      ⟨st.blocks, ⟨st.cur.serial, st.cur.headers, st.cur.data_lines ++ [line]⟩⟩
    else st
  else st

/-- The whole line loop. -/
def seg_run (st : SegState) : List String → SegState
  | [] => st
  | l :: ls => seg_run (processLine st l) ls

/-- `all_data_blocks` after the loop plus the final flush
(src/main.py lines 123-125). -/
def all_data_blocks (lines : List String) : List Block :=
  let st := seg_run ⟨[], emptyBlock⟩ lines
  if qualifies st.cur then st.blocks ++ [st.cur] else st.blocks

/-! ## Tabular assembler (src/main.py lines 127-158) -/

/-- Empty CSV field read as `NaN` by `pd.read_csv`, otherwise a string. -/
def fieldToCell (f : String) : Cell :=
  if f = "" then Cell.null else Cell.str f

/-- The per-block CSV synthesis and `pd.read_csv` (src/main.py lines 132-149).
The read is modelled as requiring a rectangular table — per the spec, a block
whose rows do not match the header shape fails to parse and is dropped with a
warning. -/
def block_to_df (b : Block) : Except String DataFrame :=
  let headers := match b.headers with | some h => h | none => "None"
  let serial := match b.serial with | some s => s | none => "None"
  let columns := pySplit ("SERIAL_NUMBER," ++ headers) ','
  let rawRows := b.data_lines.map (fun l => pySplit (serial ++ "," ++ l) ',')
  if rawRows.all (fun r => r.length = columns.length) then
    Except.ok ⟨columns, rawRows.map (fun r => r.map fieldToCell)⟩
  else Except.error ("ParserError")

/-- Union of the column lists, in first-appearance order (`pd.concat`
alignment). -/
def union_columns (ls : List (List String)) : List String :=
  ls.foldl (fun acc cs => acc ++ cs.filter (fun c => !acc.contains c)) []

/-- `pd.concat(dataframes, ignore_index=True)`: rows of each frame in order,
aligned to the united column list with nulls for missing columns. -/
def pd_concat (dfs : List DataFrame) : DataFrame :=
  match dfs with
  | [] => ⟨[], []⟩
  | _ =>
    let cols := union_columns (dfs.map DataFrame.columns)
    ⟨cols, (dfs.map (fun df => df.rows.map (fun r =>
        cols.map (fun c =>
          match df.columns.findIdx? (fun c2 => c2 = c) with
          | some i => r.getD i Cell.null
          | none => Cell.null)))).flatten⟩

/-- The DataFrames that survive `pd.read_csv` (src/main.py lines 130-154);
a block that fails to parse is skipped with a warning. -/
def block_dfs (lines : List String) : List DataFrame :=
  (all_data_blocks lines).filterMap (fun b =>
    if qualifies b then (block_to_df b).toOption else none)

/-- `parse_kor_measurements` from the decoded lines on
(src/main.py lines 78-161). -/
def parse_kor_measurements (p : String → Option Nat) (lines : List String) :
    Except String DataFrame :=
  match block_dfs lines with
  | [] => Except.ok ⟨[], []⟩
  | df :: dfs => clean_kor_measurements p (pd_concat (df :: dfs))

/-! ## Encoding resolver (src/main.py lines 66-76) -/

/-- A latin-1 byte decodes exactly when it is a byte: every value `0..255`
maps to the code point of the same value. -/
def latin1_decode_byte (b : Nat) : Option Char :=
  if b < 256 then some (Char.ofNat b) else none

/-- Whole-content latin-1 decoding; total on genuine byte sequences. -/
def latin1_decode (bytes : List Nat) : Option (List Char) :=
  bytes.mapM latin1_decode_byte

/-- The `for encoding in encodings: try ... except UnicodeError ... else raise`
loop of src/main.py lines 66-76.  Each decoder yields the decoded lines or
fails with a `UnicodeError`. -/
def try_encodings (decoders : List (List Nat → Option (List String))) (bytes : List Nat) :
    Except String (List String) :=
  match decoders with
  | [] => Except.error ("Could not read file with any of the encodings")
  | d :: ds =>
    match d bytes with
    | some ls => Except.ok ls
    | none => try_encodings ds bytes

/-- Splitting decoded characters into lines for `readlines`. -/
def decoded_lines (cs : List Char) : List String :=
  (pySplitChars '\n' cs).map List.asString

/-- The encoding-resolution step with the source's candidate order
`["utf-16", "latin-1", "cp1252"]`; the first and last decoders are genuinely
partial and abstracted as parameters. -/
def read_kor_file (utf16 cp1252 : List Nat → Option (List String)) (bytes : List Nat) :
    Except String (List String) :=
  try_encodings [utf16,
    fun bs => (latin1_decode bs).map decoded_lines,
    cp1252] bytes

/-! ## Upload handler (src/app.py lines 20-175) -/

inductive UiMsg where
  | success : UiMsg
  | emptyWarn : UiMsg
  | errorMsg : UiMsg
deriving DecidableEq, Repr

/-- The `if uploaded_file is not None:` body of src/app.py lines 20-175.
The uploaded bytes are written to a temporary file, parsed, and the file is
unlinked only after a successful parse; an exception jumps to the `except`
block, which renders an error and never reaches `os.unlink`.  The boolean
records whether the temporary file still exists when control returns. -/
def upload_handler (p : String → Option Nat) (fileLines : List String) : UiMsg × Bool :=
  match parse_kor_measurements p fileLines with
  | Except.ok df =>
      (if df.rows.isEmpty then UiMsg.emptyWarn else UiMsg.success, false)
  | Except.error _ => (UiMsg.errorMsg, true)

/-- Executable stand-in for the pandas timestamp grammar: strings made of
digits, slashes, colons and spaces (with at least one digit) parse; anything
else raises, as pandas does on non-date text. -/
def demoParse (s : String) : Option Nat :=
  if s.data.all (fun c => c.isDigit || c = '/' || c = ':' || c = ' ') &&
      s.data.any Char.isDigit then
    some (s.data.foldl (fun n c => if c.isDigit then n * 10 + (c.toNat - 48) else n) 0)
  else none


/-! ## Concrete inputs used by witnesses and counterexamples -/

/-- A well-formed two-sensor export: banner lines, a marker for `S1` with two
data rows, a summary line, then a marker for `S2` with one data row. -/
def goodLines : List String :=
  ["sep=,",
   "Kor MEASUREMENT FILE EXPORT",
   "FILE CREATED: 2024-01-01",
   "SENSOR SERIAL NUMBER:,,,,S1,,",
   "DATE (MM/DD/YYYY),TIME (HH:MM:SS),SITE NAME,A,B,C,D,E,F,LATITUDE DD",
   "01/01/2024,00:00:01,7,1,2,3,4,5,6,31.5",
   "01/01/2024,00:00:02,7,1,2,3,4,5,6,31.6",
   "MEAN VALUE:,x,y",
   "SENSOR SERIAL NUMBER:,,,,,,S2",
   "DATE (MM/DD/YYYY),TIME (HH:MM:SS),SITE NAME,A,B,C,D,E,F,LATITUDE DD",
   "01/02/2024,00:00:03,8,1,2,3,4,5,6,31.7"]

/-- The clean dataset the pipeline produces from `goodLines` under
`demoParse`. -/
def goodExpected : DataFrame :=
  ⟨["Activity_Date_Time", "SERIAL_NUMBER", "A", "B", "C", "D", "E", "F", "Latitude",
    "FILE_NAME", "SITE_NAME"],
   [[Cell.dt 1012024000001, Cell.str "S1", Cell.str "1", Cell.str "2", Cell.str "3",
     Cell.str "4", Cell.str "5", Cell.str "6", Cell.str "31.5", Cell.null, Cell.str "7"],
    [Cell.dt 1012024000002, Cell.str "S1", Cell.str "1", Cell.str "2", Cell.str "3",
     Cell.str "4", Cell.str "5", Cell.str "6", Cell.str "31.6", Cell.null, Cell.str "7"],
    [Cell.dt 1022024000003, Cell.str "S2", Cell.str "1", Cell.str "2", Cell.str "3",
     Cell.str "4", Cell.str "5", Cell.str "6", Cell.str "31.7", Cell.null, Cell.str "8"]]⟩

/-- An export whose second data row has a date the timestamp grammar
rejects. -/
def badDateLines : List String :=
  ["SENSOR SERIAL NUMBER:,,,,S1,,",
   "DATE (MM/DD/YYYY),TIME (HH:MM:SS),SITE NAME,A,B,C,D,E,F,G",
   "01/01/2024,00:00:01,7,1,2,3,4,5,6,9",
   "BADDATE,00:00:02,7,1,2,3,4,5,6,9"]

/-- Lines with no marker line at all: blank, noise, and a summary line. -/
def noiseLines : List String :=
  ["", "just,some,noise", "MEAN VALUE:,1,2"]

/-- A small already-assembled table whose second row has an unparseable
date. -/
def badDateDf : DataFrame :=
  ⟨["SERIAL_NUMBER", "DATE (A)", "TIME (A)", "SITE NAME"],
   [[Cell.str "S1", Cell.str "01/01/2024", Cell.str "00:00:01", Cell.str "x"],
    [Cell.str "S1", Cell.str "BADDATE", Cell.str "00:00:02", Cell.str "x"]]⟩

/-! ## Specification predicates used by the theorems -/

/-- All data rows captured so far, saved blocks first, then the in-progress
block, in order. -/
def emitted_rows (st : SegState) : List String :=
  ((st.blocks.map Block.data_lines).flatten) ++ st.cur.data_lines

/-- A marker line (after Python stripping). -/
def isMarker (l : String) : Bool := pyStartsWith (pyStrip l) ("SENSOR SERIAL NUMBER:")

/-- The serial a marker line resolves to. -/
def markerSerial (l : String) : Option String := extract_serial (pySplit (pyStrip l) ',')

/-- `row` is the stripped form of an input line that lies strictly after a
marker line resolving to `s`, with no other marker line in between: the
serial of the nearest preceding marker. -/
def NearestSerial (lines : List String) (s : String) (row : String) : Prop :=
  ∃ pre m mid r post, lines = pre ++ m :: (mid ++ r :: post) ∧
    isMarker m = true ∧ markerSerial m = some s ∧
    pyStrip r = row ∧ isMarker r = false ∧ ∀ x ∈ mid, isMarker x = false

/-- Invariant of the in-progress block: its serial (when set) comes from the
last marker seen, no marker has been seen since, and each captured row is
the stripped form of a line after that marker. -/
def CurInv (lines : List String) (c : Block) : Prop :=
  (c.serial = none → c.data_lines = []) ∧
  ∀ s, c.serial = some s → ∃ pre m mid, lines = pre ++ m :: mid ∧ isMarker m = true ∧
    markerSerial m = some s ∧ (∀ x ∈ mid, isMarker x = false) ∧
    ∀ row ∈ c.data_lines, ∃ mid1 x mid2, mid = mid1 ++ x :: mid2 ∧ pyStrip x = row

/-- Invariant of the saved blocks: every captured row is tagged with the
serial of its nearest preceding marker. -/
def BlocksInv (lines : List String) (bs : List Block) : Prop :=
  ∀ b ∈ bs, ∀ row ∈ b.data_lines, ∃ s, b.serial = some s ∧ NearestSerial lines s row

/-- No cell of the `SERIAL_NUMBER` column equals the sentinel. -/
def NoTBD (df : DataFrame) : Prop :=
  ∀ col, df.getCol "SERIAL_NUMBER" = some col → ∀ c ∈ col, c ≠ Cell.str "TBD"

/-- The unified table `pd.concat` assembles from `goodLines`: both sensors'
rows, S1's two rows before S2's row. -/
def unifiedExpected : DataFrame :=
  ⟨["SERIAL_NUMBER", "DATE (MM/DD/YYYY)", "TIME (HH:MM:SS)", "SITE NAME", "A", "B", "C",
    "D", "E", "F", "LATITUDE DD"],
   [[Cell.str "S1", Cell.str "01/01/2024", Cell.str "00:00:01", Cell.str "7", Cell.str "1",
     Cell.str "2", Cell.str "3", Cell.str "4", Cell.str "5", Cell.str "6", Cell.str "31.5"],
    [Cell.str "S1", Cell.str "01/01/2024", Cell.str "00:00:02", Cell.str "7", Cell.str "1",
     Cell.str "2", Cell.str "3", Cell.str "4", Cell.str "5", Cell.str "6", Cell.str "31.6"],
    [Cell.str "S2", Cell.str "01/02/2024", Cell.str "00:00:03", Cell.str "8", Cell.str "1",
     Cell.str "2", Cell.str "3", Cell.str "4", Cell.str "5", Cell.str "6", Cell.str "31.7"]]⟩

/-! ## Helper lemmas -/

theorem data_asString (cs : List Char) : cs.asString.data = cs := rfl

theorem pySplitChars_append_sep (sep : Char) (xs ys : List Char) :
    pySplitChars sep (xs ++ sep :: ys) = pySplitChars sep xs ++ pySplitChars sep ys := by
  induction xs with
  | nil => simp [pySplitChars, pySplitAux]
  | cons c cs ih =>
      by_cases hc : c = sep <;>
        simp_all [pySplitChars, pySplitAux]

theorem pySplitAux_no_sep (sep : Char) (cs : List Char) :
    sep ∉ (pySplitAux sep cs).1 ∧ ∀ p ∈ (pySplitAux sep cs).2, sep ∉ p := by
  induction cs with
  | nil => simp [pySplitAux]
  | cons c cs ih =>
      by_cases hc : c = sep
      · simpa [pySplitAux, hc] using ⟨ih.1, ih.2⟩
      · refine ⟨?_, by simpa [pySplitAux, hc] using ih.2⟩
        simp only [pySplitAux, if_neg hc]
        intro hmem
        rcases List.mem_cons.mp hmem with h | h
        · exact hc h.symm
        · exact ih.1 h

theorem pySplitChars_no_sep (sep : Char) (cs : List Char) :
    ∀ piece ∈ pySplitChars sep cs, sep ∉ piece := by
  intro piece hp
  rcases List.mem_cons.mp hp with rfl | h
  · exact (pySplitAux_no_sep sep cs).1
  · exact (pySplitAux_no_sep sep cs).2 piece h

/-- The pieces of a split never contain the separator (string level). -/
theorem pySplit_no_sep (s : String) (sep : Char) :
    ∀ piece ∈ pySplit s sep, sep ∉ piece.data := by
  intro piece hp
  simp only [pySplit, List.mem_map] at hp
  obtain ⟨cs, hcs, rfl⟩ := hp
  simpa [data_asString] using pySplitChars_no_sep sep s.data cs hcs

/-- Splitting a string assembled around a separator splits at that separator. -/
theorem pySplit_append_sep (a mid b : String) (sep : Char) (h : mid.data = [sep]) :
    pySplit (a ++ mid ++ b) sep = pySplit a sep ++ pySplit b sep := by
  simp only [pySplit, String.data_append, h, List.append_assoc, List.singleton_append]
  rw [pySplitChars_append_sep, List.map_append]

/-- Every character of `pyStrip s` is a character of `s`. -/
theorem pyStrip_data_subset (s : String) : ∀ c ∈ (pyStrip s).data, c ∈ s.data := by
  intro c hc
  simp only [pyStrip, data_asString, List.mem_reverse] at hc
  have h2 := (List.dropWhile_sublist pyIsSpace).mem hc
  have h3 : c ∈ s.data.dropWhile pyIsSpace := by simpa using h2
  exact (List.dropWhile_sublist pyIsSpace).mem h3

/-- Two candidate prefixes of the same string: the shorter is a prefix of the longer. -/
theorem pyStartsWith_both (s p q : String) (hp : pyStartsWith s p = true)
    (hq : pyStartsWith s q = true) (hlen : p.data.length ≤ q.data.length) :
    p.data.isPrefixOf q.data = true := by
  simp only [pyStartsWith, List.isPrefixOf_iff_prefix] at hp hq ⊢
  exact List.prefix_of_prefix_length_le hp hq hlen


/-- Loop-to-scan equivalence for the serial extraction. -/
theorem extract_serial_eq_find (fields : List String) :
    extract_serial fields =
      (((fields.drop 4).take 3).map pyStrip).find? (fun s => s ≠ "") := by
  match fields with
  | [] => rfl
  | [a] => rfl
  | [a, b] => rfl
  | [a, b, c] => rfl
  | [a, b, c, d] => rfl
  | [a, b, c, d, e] =>
      by_cases he : pyStrip e = "" <;>
        simp [extract_serial, List.range', List.findSome?, List.find?, he]
  | [a, b, c, d, e, f] =>
      by_cases he : pyStrip e = "" <;> by_cases hf : pyStrip f = "" <;>
        simp [extract_serial, List.range', List.findSome?, List.find?, he, hf]
  | a :: b :: c :: d :: e :: f :: g :: rest =>
      have hmin : min 7 (a :: b :: c :: d :: e :: f :: g :: rest).length - 4 = 3 := by
        simp [Nat.min_def]
      by_cases he : pyStrip e = "" <;> by_cases hf : pyStrip f = "" <;>
          by_cases hg : pyStrip g = "" <;>
        simp [extract_serial, hmin, List.range', List.findSome?, List.find?, he, hf, hg]

/-- C5: for every marker line the block's serial is the first non-empty
(after stripping) comma-separated field among positions 5 through 7
(1-indexed, i.e. 0-based indices 4 to 6); in particular a marker line whose
fields at positions 5 and 6 are empty but whose field at position 7 is
populated resolves its serial from position 7. -/
theorem C5_serial_position_range :
    (∀ fields : List String,
      extract_serial fields =
        (((fields.drop 4).take 3).map pyStrip).find? (fun s => s ≠ "")) ∧
    extract_serial (pySplit ("SENSOR SERIAL NUMBER:,,,,,,S2") ',') = some "S2" :=
  ⟨extract_serial_eq_find, by decide⟩

/-- Latin-1 decoding succeeds on every genuine byte sequence. -/
theorem latin1_total (bytes : List Nat) :
    (∀ b ∈ bytes, b < 256) → ∃ cs, latin1_decode bytes = some cs := by
  induction bytes with
  | nil => intro _; exact ⟨[], rfl⟩
  | cons b bs ih =>
      intro h
      obtain ⟨cs, hcs⟩ := ih (fun x hx => h x (List.mem_cons_of_mem b hx))
      refine ⟨Char.ofNat b :: cs, ?_⟩
      have hb : latin1_decode_byte b = some (Char.ofNat b) := by
        simp [latin1_decode_byte, h b (List.mem_cons_self b bs)]
      unfold latin1_decode at hcs ⊢
      rw [List.mapM_cons, hb, hcs]
      rfl

/-- C10: for every byte content, the encoding-resolution loop succeeds by
the latin-1 candidate at the latest, so the `ValueError` branch is
unreachable and the caller never observes a decoding failure. -/
theorem C10_latin1_unreachable :
    ∀ (utf16 cp1252 : List Nat → Option (List String)) (bytes : List Nat),
      (∀ b ∈ bytes, b < 256) →
      ∃ ls, read_kor_file utf16 cp1252 bytes = Except.ok ls := by
  intro utf16 cp1252 bytes h
  obtain ⟨cs, hcs⟩ := latin1_total bytes h
  unfold read_kor_file try_encodings
  cases hu : utf16 bytes with
  | some ls => exact ⟨ls, rfl⟩
  | none =>
      refine ⟨decoded_lines cs, ?_⟩
      unfold try_encodings
      simp [hcs]

/-- Witness for C10 at a concrete byte sequence on which the primary
decoder fails. -/
theorem C10_latin1_unreachable_witness :
    (∀ b ∈ [72, 255], b < 256) ∧
    ∃ ls, read_kor_file (fun _ => none) (fun _ => none) [72, 255] = Except.ok ls :=
  ⟨by decide, C10_latin1_unreachable (fun _ => none) (fun _ => none) [72, 255] (by decide)⟩

/-- C2 (the code violates the claim): when `parse_kor_measurements` raises,
the upload handler's `except` path reports the error without ever reaching
`os.unlink`, so the temporary file written from the uploaded bytes is NOT
deleted on that exit path.  Concretely, an upload whose parse fails leaves
the handler with the temporary file still present. -/
theorem C2_temp_file_leak :
    (∀ (p : String → Option Nat) (fileLines : List String) (e : String),
      parse_kor_measurements p fileLines = Except.error e →
      (upload_handler p fileLines).2 = true) ∧
    upload_handler demoParse badDateLines = (UiMsg.errorMsg, true) := by
  constructor
  · intro p fl e h
    simp [upload_handler, h]
  · rfl

/-- Witness for C2 at the concrete failing upload. -/
theorem C2_temp_file_leak_witness :
    (upload_handler demoParse badDateLines).2 = true :=
  (C2_temp_file_leak).1 demoParse badDateLines
    ("to_datetime: could not parse BADDATE 00:00:02") (by rfl)

/-- Without marker lines the segmenter never acquires a serial, captures no
data rows, and saves no blocks. -/
theorem seg_no_marker (ls : List String) :
    ∀ st : SegState, st.blocks = [] → st.cur.serial = none → st.cur.data_lines = [] →
    (∀ l ∈ ls, pyStartsWith (pyStrip l) ("SENSOR SERIAL NUMBER:") = false) →
    (seg_run st ls).blocks = [] ∧ (seg_run st ls).cur.serial = none ∧
      (seg_run st ls).cur.data_lines = [] := by
  induction ls with
  | nil => intro st h1 h2 h3 _; exact ⟨h1, h2, h3⟩
  | cons l ls ih =>
      intro st h1 h2 h3 hm
      have hml : pyStartsWith (pyStrip l) ("SENSOR SERIAL NUMBER:") = false :=
        hm l (List.mem_cons_self l ls)
      have hst : (processLine st l).blocks = [] ∧ (processLine st l).cur.serial = none ∧
          (processLine st l).cur.data_lines = [] := by
        by_cases hb : pyStrip l = ""
        · simp [processLine, hb, h1, h2, h3]
        · by_cases hms : (pyStartsWith (pyStrip l) ("MEAN VALUE:") ||
              pyStartsWith (pyStrip l) ("STANDARD DEVIATION:")) = true
          · simp [processLine, hb, hms, h1, h2, h3]
          · by_cases hh : pyContains (pyStrip l) ("TIME (HH:MM:SS)") = true
            · simp [processLine, hb, hms, hml, hh, h1, h2, h3]
            · simp [processLine, hb, hms, hml, hh, h1, h2, h3]
      exact ih (processLine st l) hst.1 hst.2.1 hst.2.2
        (fun x hx => hm x (List.mem_cons_of_mem l hx))

/-- C7: whenever block segmentation yields no qualifying block — in
particular for empty input and for input without any marker line —
`parse_kor_measurements` returns the empty dataset with no columns instead
of raising. -/
theorem C7_empty_dataset :
    ∀ (p : String → Option Nat) (lines : List String),
      (all_data_blocks lines = [] →
        parse_kor_measurements p lines = Except.ok ⟨[], []⟩) ∧
      ((∀ l ∈ lines, pyStartsWith (pyStrip l) ("SENSOR SERIAL NUMBER:") = false) →
        parse_kor_measurements p lines = Except.ok ⟨[], []⟩) := by
  intro p lines
  have hgen : all_data_blocks lines = [] →
      parse_kor_measurements p lines = Except.ok ⟨[], []⟩ := by
    intro h
    unfold parse_kor_measurements block_dfs
    rw [h]
    rfl
  refine ⟨hgen, fun hm => hgen ?_⟩
  have h := seg_no_marker lines ⟨[], emptyBlock⟩ rfl rfl rfl hm
  unfold all_data_blocks
  have hq : qualifies (seg_run ⟨[], emptyBlock⟩ lines).cur = false := by
    simp [qualifies, h.2.2]
  simp [hq, h.1]

/-- Witness for C7 at concrete all-noise input. -/
theorem C7_empty_dataset_witness :
    parse_kor_measurements demoParse noiseLines = Except.ok ⟨[], []⟩ :=
  (C7_empty_dataset demoParse noiseLines).2 (by decide)

/-- Two incompatible prefixes cannot both start the same string. -/
theorem startsWith_exclusive (t p q : String)
    (h1 : p.data.isPrefixOf q.data = false) (h2 : q.data.isPrefixOf p.data = false)
    (hp : pyStartsWith t p = true) : pyStartsWith t q = false := by
  by_contra hq
  rw [Bool.not_eq_false] at hq
  rcases List.prefix_or_prefix_of_prefix (List.isPrefixOf_iff_prefix.mp hp)
      (List.isPrefixOf_iff_prefix.mp hq) with h | h
  · rw [← List.isPrefixOf_iff_prefix, h1] at h
    exact Bool.noConfusion h
  · rw [← List.isPrefixOf_iff_prefix, h2] at h
    exact Bool.noConfusion h

/-- A non-empty pattern never starts the empty string. -/
theorem pyStartsWith_empty (p : String) (h : p.data ≠ []) :
    pyStartsWith ("") p = false := by
  unfold pyStartsWith
  match hp : p.data with
  | [] => exact absurd hp h
  | a :: as => rfl

/-- A line starting with one of the banner prefixes is non-blank and starts
with neither the summary prefixes nor the marker prefix. -/
theorem banner_facts (l : String)
    (hp : (pyStartsWith (pyStrip l) ("sep=") ||
      pyStartsWith (pyStrip l) ("Kor MEASUREMENT") ||
      pyStartsWith (pyStrip l) ("FILE CREATED:")) = true) :
    ¬ (pyStrip l = "") ∧
    (pyStartsWith (pyStrip l) ("MEAN VALUE:") ||
      pyStartsWith (pyStrip l) ("STANDARD DEVIATION:")) = false ∧
    pyStartsWith (pyStrip l) ("SENSOR SERIAL NUMBER:") = false := by
  have hp' : pyStartsWith (pyStrip l) ("sep=") = true ∨
      pyStartsWith (pyStrip l) ("Kor MEASUREMENT") = true ∨
      pyStartsWith (pyStrip l) ("FILE CREATED:") = true := by
    simpa [or_assoc] using hp
  rcases hp' with h | h | h
  · refine ⟨?_, ?_, startsWith_exclusive _ _ ("SENSOR SERIAL NUMBER:") (by decide) (by decide) h⟩
    · intro he
      rw [he, pyStartsWith_empty _ (by decide)] at h
      exact Bool.noConfusion h
    · rw [startsWith_exclusive _ _ ("MEAN VALUE:") (by decide) (by decide) h,
        startsWith_exclusive _ _ ("STANDARD DEVIATION:") (by decide) (by decide) h]
      rfl
  · refine ⟨?_, ?_, startsWith_exclusive _ _ ("SENSOR SERIAL NUMBER:") (by decide) (by decide) h⟩
    · intro he
      rw [he, pyStartsWith_empty _ (by decide)] at h
      exact Bool.noConfusion h
    · rw [startsWith_exclusive _ _ ("MEAN VALUE:") (by decide) (by decide) h,
        startsWith_exclusive _ _ ("STANDARD DEVIATION:") (by decide) (by decide) h]
      rfl
  · refine ⟨?_, ?_, startsWith_exclusive _ _ ("SENSOR SERIAL NUMBER:") (by decide) (by decide) h⟩
    · intro he
      rw [he, pyStartsWith_empty _ (by decide)] at h
      exact Bool.noConfusion h
    · rw [startsWith_exclusive _ _ ("MEAN VALUE:") (by decide) (by decide) h,
        startsWith_exclusive _ _ ("STANDARD DEVIATION:") (by decide) (by decide) h]
      rfl

/-- C9 (amended): summary lines (`MEAN VALUE:`, `STANDARD DEVIATION:`) leave
the segmenter state unchanged unconditionally; lines with the banner
prefixes (`sep=`, `Kor MEASUREMENT`, `FILE CREATED:`) leave the state
unchanged and are never captured as header or data — UNLESS the line also
contains the header signature `"TIME (HH:MM:SS)"`, in which case it IS
captured as the current block's header (the header check precedes the
banner-prefix exclusion in the code). -/
theorem C9_annot_lines :
    ∀ (st : SegState) (l : String),
      ((pyStartsWith (pyStrip l) ("MEAN VALUE:") ||
        pyStartsWith (pyStrip l) ("STANDARD DEVIATION:")) = true →
        processLine st l = st) ∧
      ((pyStartsWith (pyStrip l) ("sep=") ||
        pyStartsWith (pyStrip l) ("Kor MEASUREMENT") ||
        pyStartsWith (pyStrip l) ("FILE CREATED:")) = true →
        pyContains (pyStrip l) ("TIME (HH:MM:SS)") = false →
        processLine st l = st) ∧
      ((pyStartsWith (pyStrip l) ("sep=") ||
        pyStartsWith (pyStrip l) ("Kor MEASUREMENT") ||
        pyStartsWith (pyStrip l) ("FILE CREATED:")) = true →
        pyContains (pyStrip l) ("TIME (HH:MM:SS)") = true →
        processLine st l =
          ⟨st.blocks, ⟨st.cur.serial, some (pyStrip (pyStrip l)), st.cur.data_lines⟩⟩) := by
  intro st l
  refine ⟨?_, ?_, ?_⟩
  · intro ha
    by_cases hb : pyStrip l = ""
    · simp [processLine, hb]
    · simp [processLine, hb, ha]
  · intro hp hc
    obtain ⟨ht, hms, hsn⟩ := banner_facts l hp
    simp [processLine, ht, hms, hsn, hc, hp]
  · intro hp hc
    obtain ⟨ht, hms, hsn⟩ := banner_facts l hp
    simp [processLine, ht, hms, hsn, hc, hp]

/-- Counterexample to C9 as stated: a `sep=`-prefixed line containing the
header signature changes the segmenter state (it is captured as the block
header). -/
theorem C9_counterexample :
    processLine ⟨[], ⟨some "S1", none, []⟩⟩ ("sep=x,TIME (HH:MM:SS)") ≠
      ⟨[], ⟨some "S1", none, []⟩⟩ := by
  decide

/-- Witness for C9 at concrete lines of each kind. -/
theorem C9_annot_lines_witness :
    processLine ⟨[], emptyBlock⟩ ("MEAN VALUE:,1,2") = ⟨[], emptyBlock⟩ ∧
    processLine ⟨[], emptyBlock⟩ ("FILE CREATED: 2024") = ⟨[], emptyBlock⟩ ∧
    processLine ⟨[], ⟨some "S1", none, []⟩⟩ ("sep=x,TIME (HH:MM:SS)") =
      ⟨[], ⟨some "S1", some (pyStrip (pyStrip ("sep=x,TIME (HH:MM:SS)"))), []⟩⟩ :=
  ⟨(C9_annot_lines ⟨[], emptyBlock⟩ ("MEAN VALUE:,1,2")).1 (by decide),
   (C9_annot_lines ⟨[], emptyBlock⟩ ("FILE CREATED: 2024")).2.1 (by decide) (by decide),
   (C9_annot_lines ⟨[], ⟨some "S1", none, []⟩⟩ ("sep=x,TIME (HH:MM:SS)")).2.2
     (by decide) (by decide)⟩

theorem except_bind_ok {α β ε : Type} (a : α) (f : α → Except ε β) :
    (Except.ok a >>= f) = f a := rfl

theorem except_bind_error {α β ε : Type} (e : ε) (f : α → Except ε β) :
    ((Except.error e : Except ε α) >>= f) = Except.error e := rfl

/-- If one element fails, `mapM` over `Except` fails as a whole. -/
theorem mapM_error_of_mem {α β : Type} (f : α → Except String β) (cs : List α)
    (h : ∃ c ∈ cs, ∀ v, f c ≠ Except.ok v) :
    ∃ e, cs.mapM f = Except.error e := by
  induction cs with
  | nil => obtain ⟨c, hc, _⟩ := h; exact absurd hc (List.not_mem_nil c)
  | cons c cs ih =>
      obtain ⟨c0, hc0, hbad⟩ := h
      cases hfc : f c with
      | error e =>
          exact ⟨e, by rw [List.mapM_cons, hfc, except_bind_error]⟩
      | ok v =>
          rcases List.mem_cons.mp hc0 with rfl | hmem
          · exact absurd hfc (hbad v)
          · obtain ⟨e, he⟩ := ih ⟨c0, hmem, hbad⟩
            exact ⟨e, by rw [List.mapM_cons, hfc, except_bind_ok, he, except_bind_error]⟩

/-- C1 (amended): a surviving row whose `Date` and `Time` fields do not
combine into a timestamp the grammar accepts makes `pd.to_datetime`
(default `errors="raise"`) raise, so the whole clean step fails — the value
is not nulled per-row and the remaining rows are not returned. -/
theorem C1_timestamp_abort :
    ∀ (p : String → Option Nat) (df q : DataFrame) (dc tc : List Cell),
      pd_query_serial_ne_tbd (pd_rename df) = Except.ok q →
      q.getCol "Date" = some dc →
      q.getCol "Time" = some tc →
      (∃ c ∈ combined_date_time dc tc, ∀ v, to_datetime_cell p c ≠ Except.ok v) →
      ∃ e, clean_kor_measurements p df = Except.error e := by
  intro p df q dc tc hq hdc htc hbad
  obtain ⟨e, he⟩ := mapM_error_of_mem (to_datetime_cell p) (combined_date_time dc tc) hbad
  refine ⟨e, ?_⟩
  unfold clean_kor_measurements
  rw [hq]
  simp only [hdc, htc]
  unfold pd_to_datetime
  rw [he]

/-- Counterexample to C1 as stated: an input whose second data row has an
unparseable date makes the whole parse fail instead of nulling that row's
`Activity_Date_Time` and completing. -/
theorem C1_counterexample :
    parse_kor_measurements demoParse badDateLines =
      Except.error ("to_datetime: could not parse BADDATE 00:00:02") := by
  rfl

/-- Witness for C1 (amended) at a concrete table and grammar. -/
theorem C1_timestamp_abort_witness :
    ∃ e, clean_kor_measurements demoParse badDateDf = Except.error e :=
  C1_timestamp_abort demoParse badDateDf
    ⟨["SERIAL_NUMBER", "Date", "Time", "SITE_NAME"],
     [[Cell.str "S1", Cell.str "01/01/2024", Cell.str "00:00:01", Cell.str "x"],
      [Cell.str "S1", Cell.str "BADDATE", Cell.str "00:00:02", Cell.str "x"]]⟩
    [Cell.str "01/01/2024", Cell.str "BADDATE"]
    [Cell.str "00:00:01", Cell.str "00:00:02"]
    (by rfl) (by rfl) (by rfl)
    ⟨Cell.str "BADDATE 00:00:02", by decide, by
      intro v h
      rw [show to_datetime_cell demoParse (Cell.str ("BADDATE 00:00:02")) =
        Except.error ("to_datetime: could not parse BADDATE 00:00:02") from rfl] at h
      exact Except.noConfusion h⟩

/-- A successful query keeps the renamed column list. -/
theorem query_columns (df q : DataFrame)
    (hq : pd_query_serial_ne_tbd (pd_rename df) = Except.ok q) :
    q.columns = df.columns.map rename_columns := by
  unfold pd_query_serial_ne_tbd at hq
  cases hfi : (pd_rename df).columns.findIdx? (fun c => c = "SERIAL_NUMBER") with
  | none => rw [hfi] at hq; exact Except.noConfusion hq
  | some i =>
      rw [hfi] at hq
      cases hq
      rfl

/-- Assigning a column that is present keeps the column list. -/
theorem assign_columns_of_getCol (df : DataFrame) (n : String) (vs vals : List Cell)
    (h : df.getCol n = some vs) :
    (pd_assign df n vals).columns = df.columns := by
  unfold DataFrame.getCol at h
  unfold pd_assign
  cases hfi : df.columns.findIdx? (fun c => c = n) with
  | none => rw [hfi] at h; exact Option.noConfusion h
  | some i => rfl

/-- C3 (amended): for every table the normalizer successfully cleans, the
output columns are exactly `Activity_Date_Time` first, then the renamed
input columns other than `Activity_Date_Time`, `Date`, `Time`, `FILE_NAME`
and `SITE_NAME` in their original relative order, then `FILE_NAME` and
`SITE_NAME` — the last two are placed there unconditionally (created as
null-filled columns when the input lacks them). -/
theorem C3_reindex_columns :
    ∀ (p : String → Option Nat) (df out : DataFrame),
      clean_kor_measurements p df = Except.ok out →
      out.columns =
        "Activity_Date_Time" ::
          ((df.columns.map rename_columns).filter (fun c =>
            !(["Activity_Date_Time", "FILE_NAME", "SITE_NAME"].contains c) &&
            !(["Date", "Time"].contains c))) ++
          ["FILE_NAME", "SITE_NAME"] := by
  intro p df out h
  unfold clean_kor_measurements at h
  cases hq : pd_query_serial_ne_tbd (pd_rename df) with
  | error e => rw [hq] at h; exact Except.noConfusion h
  | ok q =>
  rw [hq] at h
  dsimp only at h
  cases hdc : q.getCol "Date" with
  | none => rw [hdc] at h; exact Except.noConfusion h
  | some dc =>
  rw [hdc] at h
  dsimp only at h
  cases htc : q.getCol "Time" with
  | none => rw [htc] at h; exact Except.noConfusion h
  | some tc =>
  rw [htc] at h
  dsimp only at h
  cases hadt : pd_to_datetime p (combined_date_time dc tc) with
  | error e => rw [hadt] at h; exact Except.noConfusion h
  | ok adt =>
  rw [hadt] at h
  dsimp only at h
  cases hd : pd_drop (pd_assign q ("Activity_Date_Time") adt) ["Date", "Time"] with
  | error e => rw [hd] at h; exact Except.noConfusion h
  | ok d =>
  rw [hd] at h
  dsimp only at h
  cases hc2 : pd_astype_category d ("SERIAL_NUMBER") with
  | error e => rw [hc2] at h; exact Except.noConfusion h
  | ok c =>
  rw [hc2] at h
  dsimp only at h
  cases hs : pd_assign_site_str c with
  | error e => rw [hs] at h; exact Except.noConfusion h
  | ok s =>
  rw [hs] at h
  dsimp only at h
  have hout : out = pd_reindex_columns s (reindex_targets s.columns) := by
    cases h; rfl
  have hcd : c = d := by
    unfold pd_astype_category at hc2
    by_cases hmem : d.columns.contains ("SERIAL_NUMBER")
    · rw [if_pos hmem] at hc2; cases hc2; rfl
    · rw [if_neg hmem] at hc2; exact Except.noConfusion hc2
  have hsc : s.columns = d.columns := by
    unfold pd_assign_site_str at hs
    cases hg : c.getCol "SITE_NAME" with
    | none => rw [hg] at hs; exact Except.noConfusion hs
    | some vs =>
        rw [hg] at hs
        cases hs
        rw [assign_columns_of_getCol c _ vs _ hg, hcd]
  have hdc2 : d.columns =
      (pd_assign q ("Activity_Date_Time") adt).columns.filter
        (fun c0 => !(["Date", "Time"] : List String).contains c0) := by
    unfold pd_drop at hd
    by_cases hall : (["Date", "Time"] : List String).all
        (fun n => (pd_assign q ("Activity_Date_Time") adt).columns.contains n)
    · rw [if_pos hall] at hd; cases hd; rfl
    · rw [if_neg hall] at hd; exact Except.noConfusion hd
  have hqc : q.columns = df.columns.map rename_columns := query_columns df q hq
  have houtc : out.columns =
      "Activity_Date_Time" ::
        (s.columns.filter (fun c0 =>
          !(["Activity_Date_Time", "FILE_NAME", "SITE_NAME"] : List String).contains c0)) ++
        ["FILE_NAME", "SITE_NAME"] := by
    rw [hout]
    rfl
  rw [houtc, hsc, hdc2, List.filter_filter]
  unfold pd_assign
  cases hfi : q.columns.findIdx? (fun c0 => c0 = "Activity_Date_Time") with
  | some i => rw [hqc]
  | none =>
      rw [List.filter_append, hqc]
      have : List.filter (fun c0 =>
          !(["Activity_Date_Time", "FILE_NAME", "SITE_NAME"] : List String).contains c0 &&
          !(["Date", "Time"] : List String).contains c0) ["Activity_Date_Time"] = [] := by
        decide
      rw [this, List.append_nil]

/-- Counterexample to C3 as stated: the table assembled from `goodLines`
has no `FILE_NAME` column, yet the cleaned output gains one (null-filled,
in last-but-one position). -/
theorem C3_counterexample :
    (pd_concat (block_dfs goodLines)).columns.contains ("FILE_NAME") = false ∧
    parse_kor_measurements demoParse goodLines = Except.ok goodExpected ∧
    goodExpected.columns.contains ("FILE_NAME") = true :=
  ⟨by decide, by rfl, by decide⟩

/-- Witness for C3 (amended) at the concrete two-sensor input. -/
theorem C3_reindex_columns_witness :
    goodExpected.columns =
      "Activity_Date_Time" ::
        (((pd_concat (block_dfs goodLines)).columns.map rename_columns).filter (fun c =>
          !(["Activity_Date_Time", "FILE_NAME", "SITE_NAME"].contains c) &&
          !(["Date", "Time"].contains c))) ++
        ["FILE_NAME", "SITE_NAME"] :=
  C3_reindex_columns demoParse (pd_concat (block_dfs goodLines)) goodExpected (by rfl)

/-- One loop step extends the captured rows by at most the stripped line,
preserving order. -/
theorem emitted_step (st : SegState) (l : String) :
    List.Sublist (emitted_rows (processLine st l)) (emitted_rows st ++ [pyStrip l]) := by
  have base : List.Sublist (emitted_rows st) (emitted_rows st ++ [pyStrip l]) :=
    List.sublist_append_left _ _
  unfold processLine
  dsimp only
  by_cases h1 : pyStrip l = ""
  · rw [if_pos h1]; exact base
  rw [if_neg h1]
  by_cases h2 : (pyStartsWith (pyStrip l) ("MEAN VALUE:") ||
      pyStartsWith (pyStrip l) ("STANDARD DEVIATION:")) = true
  · rw [if_pos h2]; exact base
  rw [if_neg h2]
  by_cases h3 : pyStartsWith (pyStrip l) ("SENSOR SERIAL NUMBER:") = true
  · rw [if_pos h3]
    by_cases h4 : qualifies st.cur = true
    · rw [if_pos h4]
      have he : emitted_rows
          ⟨st.blocks ++ [st.cur],
           ⟨extract_serial (pySplit (pyStrip l) ','), none, []⟩⟩ = emitted_rows st := by
        simp [emitted_rows]
      rw [he]; exact base
    · rw [if_neg h4]
      have he : emitted_rows
          ⟨st.blocks, ⟨extract_serial (pySplit (pyStrip l) ','), none, []⟩⟩ =
            (st.blocks.map Block.data_lines).flatten := by
        simp [emitted_rows]
      rw [he]
      exact (List.sublist_append_left _ _).trans base
  rw [if_neg h3]
  by_cases h5 : pyContains (pyStrip l) ("TIME (HH:MM:SS)") = true
  · rw [if_pos h5]
    have he : emitted_rows
        ⟨st.blocks, ⟨st.cur.serial, some (pyStrip (pyStrip l)), st.cur.data_lines⟩⟩ =
          emitted_rows st := by
      simp [emitted_rows]
    rw [he]; exact base
  rw [if_neg h5]
  by_cases h6 : (pyContains (pyStrip l) (",") &&
      !(pyStartsWith (pyStrip l) ("sep=") || pyStartsWith (pyStrip l) ("Kor MEASUREMENT") ||
        pyStartsWith (pyStrip l) ("FILE CREATED:")) &&
      (st.cur.serial).isSome) = true
  · rw [if_pos h6]
    by_cases h7 : (pySplit (pyStrip l) ',').length > 9
    · rw [if_pos h7]
      have he : emitted_rows
          ⟨st.blocks, ⟨st.cur.serial, st.cur.headers, st.cur.data_lines ++ [pyStrip l]⟩⟩ =
            emitted_rows st ++ [pyStrip l] := by
        simp [emitted_rows]
      rw [he]
    · rw [if_neg h7]; exact base
  · rw [if_neg h6]; exact base

/-- The whole loop only captures stripped input lines, in input order. -/
theorem seg_run_sublist (ls : List String) :
    ∀ st : SegState,
      List.Sublist (emitted_rows (seg_run st ls)) (emitted_rows st ++ ls.map pyStrip) := by
  induction ls with
  | nil => intro st; simp [seg_run]
  | cons l ls ih =>
      intro st
      have h1 := ih (processLine st l)
      have h2 := (emitted_step st l).append_right (ls.map pyStrip)
      have h3 := h1.trans h2
      simpa using h3

/-- C8: the unified table preserves order — the captured rows of all
assembled blocks form, in order, a subsequence of the (stripped) input
lines, so blocks appear in marker order and rows in input order; and on the
concrete two-sensor file the concatenated table holds S1's rows before
S2's row. -/
theorem C8_order_preserved :
    (∀ lines : List String,
      List.Sublist (((all_data_blocks lines).map Block.data_lines).flatten)
        (lines.map pyStrip)) ∧
    pd_concat (block_dfs goodLines) = unifiedExpected := by
  constructor
  · intro lines
    have h := seg_run_sublist lines ⟨[], emptyBlock⟩
    unfold all_data_blocks
    by_cases hq : qualifies (seg_run ⟨[], emptyBlock⟩ lines).cur = true
    · rw [if_pos hq]
      have he : (((seg_run ⟨[], emptyBlock⟩ lines).blocks ++
          [(seg_run ⟨[], emptyBlock⟩ lines).cur]).map Block.data_lines).flatten =
          emitted_rows (seg_run ⟨[], emptyBlock⟩ lines) := by
        simp [emitted_rows]
      rw [he]
      simpa [emitted_rows, emptyBlock] using h
    · rw [if_neg hq]
      have h2 : List.Sublist
          (((seg_run ⟨[], emptyBlock⟩ lines).blocks.map Block.data_lines).flatten)
          (emitted_rows (seg_run ⟨[], emptyBlock⟩ lines)) := List.sublist_append_left _ _
      exact h2.trans (by simpa [emitted_rows, emptyBlock] using h)
  · rfl

theorem asString_data (s : String) : s.data.asString = s := by
  cases s
  rfl

theorem pySplitAux_no_sep_eq (sep : Char) (cs : List Char) (h : sep ∉ cs) :
    pySplitAux sep cs = (cs, []) := by
  induction cs with
  | nil => rfl
  | cons c cs ih =>
      have hc : ¬ (c = sep) := fun he => h (he ▸ List.mem_cons_self c cs)
      simp [pySplitAux, hc, ih (fun hm => h (List.mem_cons_of_mem c hm))]

/-- A string without the separator splits into itself alone. -/
theorem pySplit_single (s : String) (sep : Char) (h : sep ∉ s.data) :
    pySplit s sep = [s] := by
  unfold pySplit pySplitChars
  rw [pySplitAux_no_sep_eq sep s.data h]
  simp [asString_data]

/-- A successfully extracted serial is non-empty and is the strip of one of
the marker line's fields. -/
theorem extract_serial_props (fields : List String) (s : String)
    (h : extract_serial fields = some s) :
    s ≠ "" ∧ ∃ i, s = pyStrip (fields.getD i "") := by
  unfold extract_serial at h
  obtain ⟨i, _, hfi⟩ := List.exists_of_findSome?_eq_some h
  dsimp only at hfi
  by_cases hne : pyStrip (fields.getD i "") ≠ ""
  · rw [if_pos hne] at hfi
    cases hfi
    exact ⟨hne, i, rfl⟩
  · rw [if_neg hne] at hfi
    exact Option.noConfusion hfi

/-- A marker line's serial is non-empty and contains no comma. -/
theorem serial_no_comma (m s : String) (h : markerSerial m = some s) :
    s ≠ "" ∧ ',' ∉ s.data := by
  obtain ⟨hne, i, hs⟩ := extract_serial_props _ _ h
  refine ⟨hne, ?_⟩
  intro hmem
  rw [hs] at hmem
  have hmem2 : ',' ∈ ((pySplit (pyStrip m) ',').getD i "").data :=
    pyStrip_data_subset _ _ hmem
  cases hget : ((pySplit (pyStrip m) ',')[i]?) with
  | some piece =>
      have he : (pySplit (pyStrip m) ',').getD i "" = piece := by
        rw [List.getD_eq_getElem?_getD, hget]
        rfl
      rw [he] at hmem2
      exact pySplit_no_sep _ _ piece (List.getElem?_mem hget) hmem2
  | none =>
      have he : (pySplit (pyStrip m) ',').getD i "" = "" := by
        rw [List.getD_eq_getElem?_getD, hget]
        rfl
      rw [he] at hmem2
      simp at hmem2

/-- Appending a line on the right preserves nearest-marker provenance. -/
theorem NearestSerial_mono (lines : List String) (l : String) (s row : String)
    (h : NearestSerial lines s row) : NearestSerial (lines ++ [l]) s row := by
  obtain ⟨pre, m, mid, r, post, heq, hm, hms, hr, hrm, hmid⟩ := h
  exact ⟨pre, m, mid, r, post ++ [l], by rw [heq]; simp, hm, hms, hr, hrm, hmid⟩

theorem BlocksInv_mono (lines : List String) (l : String) (bs : List Block)
    (h : BlocksInv lines bs) : BlocksInv (lines ++ [l]) bs :=
  fun b hb row hrow =>
    (h b hb row hrow).imp (fun _ hs => ⟨hs.1, NearestSerial_mono _ _ _ _ hs.2⟩)

/-- Flushing the in-progress block: each of its rows has nearest-marker
provenance. -/
theorem CurInv_flush (lines : List String) (c : Block) (h : CurInv lines c) :
    ∀ row ∈ c.data_lines, ∃ s, c.serial = some s ∧ NearestSerial lines s row := by
  intro row hrow
  cases hc : c.serial with
  | none => exact absurd ((h.1 hc) ▸ hrow) (List.not_mem_nil row)
  | some s =>
      obtain ⟨pre, m, mid, hl, hm, hms, hmid, hrows⟩ := h.2 s hc
      obtain ⟨mid1, x, mid2, hmideq, hx⟩ := hrows row hrow
      have hxmem : x ∈ mid := by rw [hmideq]; simp
      refine ⟨s, rfl, pre, m, mid1, x, mid2, ?_, hm, hms, hx, hmid x hxmem, ?_⟩
      · rw [hl, hmideq]
      · intro y hy
        exact hmid y (by rw [hmideq]; simp [hy])

/-- A non-marker line extends the in-progress block's invariant. -/
theorem CurInv_extend (lines : List String) (l : String) (c : Block)
    (hml : isMarker l = false) (h : CurInv lines c) : CurInv (lines ++ [l]) c := by
  refine ⟨h.1, fun s hs => ?_⟩
  obtain ⟨pre, m, mid, hl, hm, hms, hmid, hrows⟩ := h.2 s hs
  refine ⟨pre, m, mid ++ [l], by rw [hl]; simp, hm, hms, ?_, ?_⟩
  · intro x hx
    rcases List.mem_append.mp hx with hx | hx
    · exact hmid x hx
    · rw [List.mem_singleton.mp hx]
      exact hml
  · intro row hrow
    obtain ⟨mid1, x, mid2, hmideq, hx⟩ := hrows row hrow
    exact ⟨mid1, x, mid2 ++ [l], by rw [hmideq]; simp, hx⟩

/-- Capturing a data line preserves the in-progress block's invariant. -/
theorem CurInv_data (lines : List String) (l : String) (c : Block)
    (hml : isMarker l = false) (hsome : c.serial.isSome = true) (h : CurInv lines c) :
    CurInv (lines ++ [l]) ⟨c.serial, c.headers, c.data_lines ++ [pyStrip l]⟩ := by
  refine ⟨?_, fun s hs2 => ?_⟩
  · intro hn
    exfalso
    rw [hn] at hsome
    exact Bool.noConfusion hsome
  · obtain ⟨pre, m, mid, hl, hm, hms, hmid, hrows⟩ := h.2 s hs2
    refine ⟨pre, m, mid ++ [l], by rw [hl]; simp, hm, hms, ?_, ?_⟩
    · intro x hx
      rcases List.mem_append.mp hx with hx | hx
      · exact hmid x hx
      · rw [List.mem_singleton.mp hx]
        exact hml
    · intro row hrow
      rcases List.mem_append.mp hrow with hrow | hrow
      · obtain ⟨mid1, x, mid2, hmideq, hx⟩ := hrows row hrow
        exact ⟨mid1, x, mid2 ++ [l], by rw [hmideq]; simp, hx⟩
      · rw [List.mem_singleton.mp hrow]
        exact ⟨mid, l, [], by simp, rfl⟩

/-- A marker line starts a fresh in-progress block satisfying the
invariant. -/
theorem CurInv_marker (lines : List String) (l : String) (hm : isMarker l = true) :
    CurInv (lines ++ [l]) ⟨extract_serial (pySplit (pyStrip l) ','), none, []⟩ := by
  refine ⟨fun _ => rfl, fun s hs => ?_⟩
  exact ⟨lines, l, [], by simp, hm, hs, by simp, by simp⟩

theorem isMarker_of_blank (l : String) (h : pyStrip l = "") : isMarker l = false := by
  unfold isMarker
  rw [h]
  exact pyStartsWith_empty _ (by decide)

theorem isMarker_of_summary (l : String)
    (h : (pyStartsWith (pyStrip l) ("MEAN VALUE:") ||
      pyStartsWith (pyStrip l) ("STANDARD DEVIATION:")) = true) : isMarker l = false := by
  unfold isMarker
  rcases (by simpa using h : pyStartsWith (pyStrip l) ("MEAN VALUE:") = true ∨
      pyStartsWith (pyStrip l) ("STANDARD DEVIATION:") = true) with h2 | h2
  · exact startsWith_exclusive _ _ ("SENSOR SERIAL NUMBER:") (by decide) (by decide) h2
  · exact startsWith_exclusive _ _ ("SENSOR SERIAL NUMBER:") (by decide) (by decide) h2

theorem isMarker_of_not (l : String)
    (h : ¬ pyStartsWith (pyStrip l) ("SENSOR SERIAL NUMBER:") = true) :
    isMarker l = false := by
  unfold isMarker
  cases hb : pyStartsWith (pyStrip l) ("SENSOR SERIAL NUMBER:") with
  | false => rfl
  | true => exact absurd hb h

/-- One loop step preserves the segmenter invariants. -/
theorem seg_inv_step (lines : List String) (st : SegState) (l : String)
    (hc : CurInv lines st.cur) (hb : BlocksInv lines st.blocks) :
    CurInv (lines ++ [l]) (processLine st l).cur ∧
      BlocksInv (lines ++ [l]) (processLine st l).blocks := by
  unfold processLine
  dsimp only
  by_cases h1 : pyStrip l = ""
  · rw [if_pos h1]
    exact ⟨CurInv_extend lines l st.cur (isMarker_of_blank l h1) hc,
      BlocksInv_mono lines l st.blocks hb⟩
  rw [if_neg h1]
  by_cases h2 : (pyStartsWith (pyStrip l) ("MEAN VALUE:") ||
      pyStartsWith (pyStrip l) ("STANDARD DEVIATION:")) = true
  · rw [if_pos h2]
    exact ⟨CurInv_extend lines l st.cur (isMarker_of_summary l h2) hc,
      BlocksInv_mono lines l st.blocks hb⟩
  rw [if_neg h2]
  by_cases h3 : pyStartsWith (pyStrip l) ("SENSOR SERIAL NUMBER:") = true
  · rw [if_pos h3]
    refine ⟨CurInv_marker lines l h3, ?_⟩
    by_cases h4 : qualifies st.cur = true
    · rw [if_pos h4]
      intro b2 hb2
      rcases List.mem_append.mp hb2 with hmem | hmem
      · exact BlocksInv_mono lines l st.blocks hb b2 hmem
      · rw [List.mem_singleton.mp hmem]
        intro row hrow
        exact (CurInv_flush lines st.cur hc row hrow).imp
          (fun _ hs => ⟨hs.1, NearestSerial_mono _ _ _ _ hs.2⟩)
    · rw [if_neg h4]
      exact BlocksInv_mono lines l st.blocks hb
  rw [if_neg h3]
  by_cases h5 : pyContains (pyStrip l) ("TIME (HH:MM:SS)") = true
  · rw [if_pos h5]
    refine ⟨⟨hc.1, fun s hs => ?_⟩, BlocksInv_mono lines l st.blocks hb⟩
    exact (CurInv_extend lines l st.cur (isMarker_of_not l h3) hc).2 s hs
  rw [if_neg h5]
  by_cases h6 : (pyContains (pyStrip l) (",") &&
      !(pyStartsWith (pyStrip l) ("sep=") || pyStartsWith (pyStrip l) ("Kor MEASUREMENT") ||
        pyStartsWith (pyStrip l) ("FILE CREATED:")) &&
      (st.cur.serial).isSome) = true
  · rw [if_pos h6]
    by_cases h7 : (pySplit (pyStrip l) ',').length > 9
    · rw [if_pos h7]
      have hsome : (st.cur.serial).isSome = true := by
        have := h6
        simp only [Bool.and_eq_true] at this
        exact this.2
      exact ⟨CurInv_data lines l st.cur (isMarker_of_not l h3) hsome hc,
        BlocksInv_mono lines l st.blocks hb⟩
    · rw [if_neg h7]
      exact ⟨CurInv_extend lines l st.cur (isMarker_of_not l h3) hc,
        BlocksInv_mono lines l st.blocks hb⟩
  · rw [if_neg h6]
    exact ⟨CurInv_extend lines l st.cur (isMarker_of_not l h3) hc,
      BlocksInv_mono lines l st.blocks hb⟩

/-- The loop maintains the segmenter invariants over any suffix. -/
theorem seg_inv_run (ls : List String) :
    ∀ (lines : List String) (st : SegState),
      CurInv lines st.cur → BlocksInv lines st.blocks →
      CurInv (lines ++ ls) (seg_run st ls).cur ∧
        BlocksInv (lines ++ ls) (seg_run st ls).blocks := by
  induction ls with
  | nil =>
      intro lines st hc hb
      simpa [seg_run] using And.intro hc hb
  | cons l ls ih =>
      intro lines st hc hb
      obtain ⟨hc2, hb2⟩ := seg_inv_step lines st l hc hb
      have h := ih (lines ++ [l]) (processLine st l) hc2 hb2
      simpa [List.append_assoc] using h

/-- The assembled block list satisfies the provenance invariant. -/
theorem all_data_blocks_inv (lines : List String) :
    BlocksInv lines (all_data_blocks lines) := by
  have hcinit : CurInv [] emptyBlock :=
    ⟨fun _ => rfl, fun s hs => Option.noConfusion hs⟩
  have hbinit : BlocksInv [] ([] : List Block) :=
    fun b hb => absurd hb (List.not_mem_nil b)
  have h := seg_inv_run lines [] ⟨[], emptyBlock⟩ hcinit hbinit
  rw [List.nil_append] at h
  unfold all_data_blocks
  by_cases hq : qualifies (seg_run ⟨[], emptyBlock⟩ lines).cur = true
  · rw [if_pos hq]
    intro b2 hb2
    rcases List.mem_append.mp hb2 with hmem | hmem
    · exact h.2 b2 hmem
    · rw [List.mem_singleton.mp hmem]
      exact CurInv_flush lines _ h.1
  · rw [if_neg hq]
    exact h.2

/-- C4: every data row of every assembled block is tagged with the serial
extracted from the nearest marker line preceding that row in the input
(never a serial of another block), and in the per-block table built by the
assembler every row's leading `SERIAL_NUMBER` cell is exactly that
serial. -/
theorem C4_serial_provenance :
    ∀ (lines : List String), ∀ b ∈ all_data_blocks lines,
      (∀ row ∈ b.data_lines, ∃ s, b.serial = some s ∧ NearestSerial lines s row) ∧
      (∀ (s : String) (df : DataFrame), b.serial = some s →
        block_to_df b = Except.ok df →
        ∀ r ∈ df.rows, r.headD Cell.null = Cell.str s) := by
  intro lines b hb
  have hpart1 := all_data_blocks_inv lines b hb
  refine ⟨hpart1, ?_⟩
  intro s df hserial hdf r hr
  unfold block_to_df at hdf
  rw [hserial] at hdf
  dsimp only at hdf
  by_cases hall : (b.data_lines.map (fun l => pySplit (s ++ "," ++ l) ',')).all
      (fun r2 => r2.length =
        (pySplit (("SERIAL_NUMBER," ++ match b.headers with | some h => h | none => "None")) ',').length) = true
  · rw [if_pos hall] at hdf
    cases hdf
    simp only [List.mem_map] at hr
    obtain ⟨raw, hraw, hr2⟩ := hr
    obtain ⟨dl, hdl, hraweq⟩ := hraw
    obtain ⟨s2, hs2, hnear⟩ := hpart1 dl hdl
    rw [hserial] at hs2
    cases hs2
    obtain ⟨_, _, _, _, _, _, _, hms, _, _, _⟩ := hnear
    obtain ⟨hne, hnc⟩ := serial_no_comma _ _ hms
    have hsplit : pySplit (s ++ "," ++ dl) ',' = s :: pySplit dl ',' := by
      rw [pySplit_append_sep s (",") dl ',' rfl, pySplit_single s ',' hnc]
      rfl
    rw [← hr2, ← hraweq, hsplit]
    simp [fieldToCell, hne]
  · rw [if_neg hall] at hdf
    exact Except.noConfusion hdf

/-- Witness for C4 at the first block of the concrete two-sensor input. -/
theorem C4_serial_provenance_witness :
    ∃ s, (Block.mk (some "S1")
        (some ("DATE (MM/DD/YYYY),TIME (HH:MM:SS),SITE NAME,A,B,C,D,E,F,LATITUDE DD"))
        ["01/01/2024,00:00:01,7,1,2,3,4,5,6,31.5",
         "01/01/2024,00:00:02,7,1,2,3,4,5,6,31.6"]).serial = some s ∧
      NearestSerial goodLines s ("01/01/2024,00:00:01,7,1,2,3,4,5,6,31.5") :=
  (C4_serial_provenance goodLines
    (Block.mk (some "S1")
      (some ("DATE (MM/DD/YYYY),TIME (HH:MM:SS),SITE NAME,A,B,C,D,E,F,LATITUDE DD"))
      ["01/01/2024,00:00:01,7,1,2,3,4,5,6,31.5",
       "01/01/2024,00:00:02,7,1,2,3,4,5,6,31.6"])
    (by decide)).1 ("01/01/2024,00:00:01,7,1,2,3,4,5,6,31.5") (by decide)

theorem findIdx?_cons_norm {α : Type} (p : α → Bool) (x : α) (xs : List α) :
    List.findIdx? p (x :: xs) =
      if p x then some 0 else (List.findIdx? p xs).map (fun k => k + 1) := by
  rw [List.findIdx?_cons, List.findIdx?_succ]

theorem findIdx?_some_pred {α : Type} (p : α → Bool) (l : List α) (i : Nat)
    (h : List.findIdx? p l = some i) : ∃ a, l[i]? = some a ∧ p a = true := by
  induction l generalizing i with
  | nil => simp [List.findIdx?] at h
  | cons x xs ih =>
      rw [findIdx?_cons_norm] at h
      by_cases hp : p x
      · rw [if_pos hp] at h
        cases h
        exact ⟨x, by simp, hp⟩
      · rw [if_neg hp] at h
        cases hfi : List.findIdx? p xs with
        | none => rw [hfi] at h; exact Option.noConfusion h
        | some j =>
            rw [hfi] at h
            cases h
            obtain ⟨a, ha, hpa⟩ := ih j hfi
            exact ⟨a, by simpa using ha, hpa⟩

theorem findIdx?_some_lt {α : Type} (p : α → Bool) (l : List α) (i : Nat)
    (h : List.findIdx? p l = some i) : i < l.length := by
  obtain ⟨a, ha, _⟩ := findIdx?_some_pred p l i h
  by_contra hlt
  push_neg at hlt
  rw [List.getElem?_eq_none hlt] at ha
  exact Option.noConfusion ha

theorem findIdx?_append_left {α : Type} (p : α → Bool) (l l2 : List α) (i : Nat)
    (h : List.findIdx? p l = some i) : List.findIdx? p (l ++ l2) = some i := by
  induction l generalizing i with
  | nil => simp [List.findIdx?] at h
  | cons x xs ih =>
      rw [findIdx?_cons_norm] at h
      rw [List.cons_append, findIdx?_cons_norm]
      by_cases hp : p x
      · rw [if_pos hp] at h ⊢; exact h
      · rw [if_neg hp] at h ⊢
        cases hfi : List.findIdx? p xs with
        | none => rw [hfi] at h; exact Option.noConfusion h
        | some j =>
            rw [hfi] at h
            rw [ih j hfi]
            exact h

theorem findIdx?_append_none {α : Type} (p : α → Bool) (l l2 : List α)
    (h : List.findIdx? p l = none) (h2 : List.findIdx? p l2 = none) :
    List.findIdx? p (l ++ l2) = none := by
  induction l with
  | nil => simpa using h2
  | cons x xs ih =>
      rw [findIdx?_cons_norm] at h
      rw [List.cons_append, findIdx?_cons_norm]
      by_cases hp : p x
      · rw [if_pos hp] at h; exact Option.noConfusion h
      · rw [if_neg hp] at h ⊢
        cases hfi : List.findIdx? p xs with
        | none => rw [ih hfi]; rfl
        | some j => rw [hfi] at h; simp at h

/-- `pd.concat` always produces width-consistent rows. -/
theorem concat_WF (dfs : List DataFrame) : (pd_concat dfs).WF := by
  unfold pd_concat DataFrame.WF
  match dfs with
  | [] => intro r hr; simp at hr
  | d :: ds =>
      intro r hr
      simp only [List.mem_flatten, List.mem_map] at hr
      obtain ⟨rs, ⟨df, _, hrs⟩, hrmem⟩ := hr
      rw [← hrs] at hrmem
      simp only [List.mem_map] at hrmem
      obtain ⟨r0, _, hr0⟩ := hrmem
      rw [← hr0]
      simp

theorem rename_WF (df : DataFrame) (hwf : df.WF) : (pd_rename df).WF := by
  intro r hr
  simpa [pd_rename] using hwf r hr

theorem query_WF (df q : DataFrame) (hwf : df.WF)
    (h : pd_query_serial_ne_tbd df = Except.ok q) : q.WF := by
  unfold pd_query_serial_ne_tbd at h
  cases hfi : df.columns.findIdx? (fun c => c = "SERIAL_NUMBER") with
  | none => rw [hfi] at h; exact Except.noConfusion h
  | some i =>
      rw [hfi] at h
      cases h
      intro r hr
      exact hwf r (List.mem_filter.mp hr).1

theorem assign_WF (df : DataFrame) (n : String) (vals : List Cell) (hwf : df.WF) :
    (pd_assign df n vals).WF := by
  unfold pd_assign DataFrame.WF
  cases hfi : df.columns.findIdx? (fun c0 => c0 = n) with
  | some i =>
      intro r hr
      simp only [List.mem_map] at hr
      obtain ⟨rv, hrv, hre⟩ := hr
      rw [← hre]
      simp [hwf rv.1 (List.of_mem_zip hrv).1]
  | none =>
      intro r hr
      simp only [List.mem_map] at hr
      obtain ⟨rv, hrv, hre⟩ := hr
      rw [← hre]
      simp [hwf rv.1 (List.of_mem_zip hrv).1]

theorem zip_filter_snd (names : List String) :
    ∀ (cols : List String) (r : List Cell), r.length = cols.length →
      (((cols.zip r).filter (fun cv => !names.contains cv.1)).map (fun cv => cv.2)).length =
        (cols.filter (fun c => !names.contains c)).length := by
  intro cols
  induction cols with
  | nil => intro r h; simp
  | cons c cs ih =>
      intro r h
      match r with
      | [] => simp at h
      | v :: vs =>
          have hlen : vs.length = cs.length := by simpa using h
          by_cases hm : c ∈ names
          · simp only [List.zip_cons_cons, List.filter_cons]
            simp [hm]
            simpa using ih vs hlen
          · simp only [List.zip_cons_cons, List.filter_cons]
            simp [hm]
            simpa using ih vs hlen

theorem drop_WF (df d : DataFrame) (names : List String) (hwf : df.WF)
    (hd : pd_drop df names = Except.ok d) : d.WF := by
  unfold pd_drop at hd
  by_cases hall : names.all (fun n => df.columns.contains n) = true
  · rw [if_pos hall] at hd
    cases hd
    intro r hr
    simp only [List.mem_map] at hr
    obtain ⟨r0, hr0, hre⟩ := hr
    rw [← hre]
    exact zip_filter_snd names df.columns r0 (hwf r0 hr0)
  · rw [if_neg hall] at hd
    exact Except.noConfusion hd

/-- The query establishes the sentinel-free property. -/
theorem query_noTBD (d q : DataFrame) (h : pd_query_serial_ne_tbd d = Except.ok q) :
    NoTBD q := by
  unfold pd_query_serial_ne_tbd at h
  cases hfi : d.columns.findIdx? (fun c => c = "SERIAL_NUMBER") with
  | none => rw [hfi] at h; exact Except.noConfusion h
  | some i =>
      rw [hfi] at h
      cases h
      intro col hcol c hc
      unfold DataFrame.getCol at hcol
      dsimp only at hcol
      rw [hfi] at hcol
      cases hcol
      simp only [List.mem_map] at hc
      obtain ⟨r, hr, hval⟩ := hc
      have hpred := (List.mem_filter.mp hr).2
      rw [← hval]
      simpa using hpred

/-- Value correspondence for `pd_drop` rows at a kept column. -/
theorem drop_row_lookup (names : List String) (n : String)
    (hPn : (!names.contains n) = true) :
    ∀ (cols : List String) (r : List Cell) (j : Nat), r.length = cols.length →
      (cols.filter (fun c => !names.contains c)).findIdx? (fun c => c = n) = some j →
      ∃ i, cols.findIdx? (fun c => c = n) = some i ∧
        (((cols.zip r).filter (fun cv => !names.contains cv.1)).map
            (fun cv => cv.2)).getD j Cell.null = r.getD i Cell.null := by
  intro cols
  induction cols with
  | nil => intro r j _ hj; simp [List.findIdx?] at hj
  | cons c cs ih =>
      intro r j h hj
      match r with
      | [] => simp at h
      | v :: vs =>
          have hlen : vs.length = cs.length := by simpa using h
          by_cases hm : (!names.contains c) = true
          · rw [List.filter_cons, if_pos hm] at hj
            rw [findIdx?_cons_norm] at hj
            by_cases hc : (c = n)
            · rw [if_pos (by simp [hc])] at hj
              cases hj
              refine ⟨0, ?_, ?_⟩
              · rw [findIdx?_cons_norm, if_pos (by simp [hc])]
              · rw [List.zip_cons_cons, List.filter_cons, if_pos hm, List.map_cons,
                  List.getD_cons_zero, List.getD_cons_zero]
            · rw [if_neg (by simp [hc])] at hj
              cases hfj : (cs.filter (fun c0 => !names.contains c0)).findIdx?
                  (fun c0 => c0 = n) with
              | none => rw [hfj] at hj; simp at hj
              | some j0 =>
                  rw [hfj] at hj
                  simp only [Option.map] at hj
                  cases hj
                  obtain ⟨i0, hi0, hval⟩ := ih vs j0 hlen hfj
                  refine ⟨i0 + 1, ?_, ?_⟩
                  · rw [findIdx?_cons_norm, if_neg (by simp [hc]), hi0]
                    rfl
                  · rw [List.zip_cons_cons, List.filter_cons, if_pos hm, List.map_cons,
                      List.getD_cons_succ, List.getD_cons_succ]
                    exact hval
          · have hm2 : ¬ ((fun cv : String × Cell => !names.contains cv.1) (c, v) = true) := hm
            rw [List.filter_cons, if_neg hm] at hj
            have hc : ¬ (c = n) := by
              intro he
              rw [he] at hm
              exact hm hPn
            obtain ⟨i0, hi0, hval⟩ := ih vs j hlen hj
            refine ⟨i0 + 1, ?_, ?_⟩
            · rw [findIdx?_cons_norm, if_neg (by simp [hc]), hi0]
              rfl
            · rw [List.zip_cons_cons, List.filter_cons, if_neg hm2]
              exact hval

/-- Assigning any other column preserves the sentinel-free property. -/
theorem noTBD_assign (df : DataFrame) (n : String) (vals : List Cell)
    (hn : ¬ (n = "SERIAL_NUMBER")) (hwf : df.WF) (h : NoTBD df) :
    NoTBD (pd_assign df n vals) := by
  intro col hcol c hc
  unfold pd_assign at hcol
  cases hfi : df.columns.findIdx? (fun c0 => c0 = n) with
  | some i =>
      rw [hfi] at hcol
      unfold DataFrame.getCol at hcol
      dsimp only at hcol
      cases hfj : df.columns.findIdx? (fun c0 => c0 = "SERIAL_NUMBER") with
      | none => rw [hfj] at hcol; exact Option.noConfusion hcol
      | some j =>
          rw [hfj] at hcol
          cases hcol
          simp only [List.mem_map] at hc
          obtain ⟨r1, ⟨rv, hrvzip, hr1⟩, hval⟩ := hc
          have hij : i ≠ j := by
            intro he
            obtain ⟨a, ha, hpa⟩ := findIdx?_some_pred _ _ _ hfi
            obtain ⟨b, hb2, hpb⟩ := findIdx?_some_pred _ _ _ hfj
            rw [he, hb2] at ha
            cases ha
            have han : a = n := by simpa using hpa
            have haS : a = "SERIAL_NUMBER" := by simpa using hpb
            exact hn (by rw [← han, haS])
          have hval2 : (rv.1.set i rv.2).getD j Cell.null = rv.1.getD j Cell.null := by
            rw [List.getD_eq_getElem?_getD, List.getD_eq_getElem?_getD,
              List.getElem?_set_ne hij]
          rw [← hval, ← hr1, hval2]
          exact h (df.rows.map (fun r => r.getD j Cell.null))
            (by unfold DataFrame.getCol; rw [hfj]; rfl) _
            (List.mem_map_of_mem _ (List.of_mem_zip hrvzip).1)
  | none =>
      rw [hfi] at hcol
      unfold DataFrame.getCol at hcol
      dsimp only at hcol
      cases hfj : df.columns.findIdx? (fun c0 => c0 = "SERIAL_NUMBER") with
      | none =>
          have hnone : (df.columns ++ [n]).findIdx? (fun c0 => c0 = "SERIAL_NUMBER") = none := by
            apply findIdx?_append_none _ _ _ hfj
            rw [findIdx?_cons_norm, if_neg (by simp [hn])]
            rfl
          rw [hnone] at hcol
          exact Option.noConfusion hcol
      | some j =>
          rw [findIdx?_append_left _ _ _ _ hfj] at hcol
          cases hcol
          simp only [List.mem_map] at hc
          obtain ⟨r1, ⟨rv, hrvzip, hr1⟩, hval⟩ := hc
          have hjlt : j < rv.1.length := by
            rw [hwf rv.1 (List.of_mem_zip hrvzip).1]
            exact findIdx?_some_lt _ _ _ hfj
          have hval2 : (rv.1 ++ [rv.2]).getD j Cell.null = rv.1.getD j Cell.null :=
            List.getD_append rv.1 [rv.2] Cell.null j hjlt
          rw [← hval, ← hr1, hval2]
          exact h (df.rows.map (fun r => r.getD j Cell.null))
            (by unfold DataFrame.getCol; rw [hfj]; rfl) _
            (List.mem_map_of_mem _ (List.of_mem_zip hrvzip).1)

/-- Dropping other columns preserves the sentinel-free property. -/
theorem noTBD_drop (df d : DataFrame) (names : List String)
    (hnames : (!names.contains ("SERIAL_NUMBER")) = true) (hwf : df.WF) (h : NoTBD df)
    (hd : pd_drop df names = Except.ok d) : NoTBD d := by
  unfold pd_drop at hd
  by_cases hall : names.all (fun n => df.columns.contains n) = true
  · rw [if_pos hall] at hd
    cases hd
    intro col hcol c hc
    unfold DataFrame.getCol at hcol
    dsimp only at hcol
    cases hfj : (df.columns.filter (fun c0 => !names.contains c0)).findIdx?
        (fun c0 => c0 = "SERIAL_NUMBER") with
    | none => rw [hfj] at hcol; exact Option.noConfusion hcol
    | some j =>
        rw [hfj] at hcol
        cases hcol
        simp only [List.mem_map] at hc
        obtain ⟨r1, ⟨r, hr, hr1⟩, hval⟩ := hc
        obtain ⟨i, hi, hv⟩ := drop_row_lookup names ("SERIAL_NUMBER") hnames
          df.columns r j (hwf r hr) hfj
        rw [← hval, ← hr1, hv]
        exact h (df.rows.map (fun r0 => r0.getD i Cell.null))
          (by unfold DataFrame.getCol; rw [hi]; rfl) _ (List.mem_map_of_mem _ hr)
  · rw [if_neg hall] at hd
    exact Except.noConfusion hd

/-- Reindexing preserves the sentinel-free property (a created column is
null-filled). -/
theorem noTBD_reindex (df : DataFrame) (targets : List String) (h : NoTBD df) :
    NoTBD (pd_reindex_columns df targets) := by
  intro col hcol c hc
  unfold pd_reindex_columns at hcol
  unfold DataFrame.getCol at hcol
  dsimp only at hcol
  cases hfj : targets.findIdx? (fun c0 => c0 = "SERIAL_NUMBER") with
  | none => rw [hfj] at hcol; exact Option.noConfusion hcol
  | some j =>
      rw [hfj] at hcol
      cases hcol
      simp only [List.mem_map] at hc
      obtain ⟨r1, ⟨r, hr, hr1⟩, hval⟩ := hc
      obtain ⟨a, ha, hpa⟩ := findIdx?_some_pred _ _ _ hfj
      have haS : a = "SERIAL_NUMBER" := by simpa using hpa
      subst haS
      have hr1val : r1.getD j Cell.null =
          (match df.columns.findIdx? (fun c2 => c2 = "SERIAL_NUMBER") with
           | some i => r.getD i Cell.null
           | none => Cell.null) := by
        rw [← hr1, List.getD_eq_getElem?_getD, List.getElem?_map, ha]
        rfl
      rw [← hval, hr1val]
      cases hfi : df.columns.findIdx? (fun c2 => c2 = "SERIAL_NUMBER") with
      | none => simp
      | some i =>
          dsimp only
          exact h (df.rows.map (fun r0 => r0.getD i Cell.null))
            (by unfold DataFrame.getCol; rw [hfi]; rfl) _ (List.mem_map_of_mem _ hr)

/-- The whole normalizer preserves the sentinel-free property established
by the query step. -/
theorem clean_noTBD (p : String → Option Nat) (df out : DataFrame) (hwf : df.WF)
    (h : clean_kor_measurements p df = Except.ok out) : NoTBD out := by
  unfold clean_kor_measurements at h
  cases hq : pd_query_serial_ne_tbd (pd_rename df) with
  | error e => rw [hq] at h; exact Except.noConfusion h
  | ok q =>
  rw [hq] at h
  dsimp only at h
  cases hdc : q.getCol "Date" with
  | none => rw [hdc] at h; exact Except.noConfusion h
  | some dc =>
  rw [hdc] at h
  dsimp only at h
  cases htc : q.getCol "Time" with
  | none => rw [htc] at h; exact Except.noConfusion h
  | some tc =>
  rw [htc] at h
  dsimp only at h
  cases hadt : pd_to_datetime p (combined_date_time dc tc) with
  | error e => rw [hadt] at h; exact Except.noConfusion h
  | ok adt =>
  rw [hadt] at h
  dsimp only at h
  cases hd : pd_drop (pd_assign q ("Activity_Date_Time") adt) ["Date", "Time"] with
  | error e => rw [hd] at h; exact Except.noConfusion h
  | ok d =>
  rw [hd] at h
  dsimp only at h
  cases hc2 : pd_astype_category d ("SERIAL_NUMBER") with
  | error e => rw [hc2] at h; exact Except.noConfusion h
  | ok c =>
  rw [hc2] at h
  dsimp only at h
  cases hs : pd_assign_site_str c with
  | error e => rw [hs] at h; exact Except.noConfusion h
  | ok s =>
  rw [hs] at h
  dsimp only at h
  have hout : out = pd_reindex_columns s (reindex_targets s.columns) := by
    cases h
    rfl
  have hwfq : q.WF := query_WF (pd_rename df) q (rename_WF df hwf) hq
  have hq_no : NoTBD q := query_noTBD (pd_rename df) q hq
  have ha_no : NoTBD (pd_assign q ("Activity_Date_Time") adt) :=
    noTBD_assign q _ adt (by decide) hwfq hq_no
  have hwfa : (pd_assign q ("Activity_Date_Time") adt).WF := assign_WF q _ adt hwfq
  have hd_no : NoTBD d := noTBD_drop _ d ["Date", "Time"] (by decide) hwfa ha_no hd
  have hwfd : d.WF := drop_WF _ d ["Date", "Time"] hwfa hd
  have hcd : c = d := by
    unfold pd_astype_category at hc2
    by_cases hmem : d.columns.contains ("SERIAL_NUMBER") = true
    · rw [if_pos hmem] at hc2; cases hc2; rfl
    · rw [if_neg hmem] at hc2; exact Except.noConfusion hc2
  have hs_no : NoTBD s := by
    unfold pd_assign_site_str at hs
    cases hg : c.getCol "SITE_NAME" with
    | none => rw [hg] at hs; exact Except.noConfusion hs
    | some vs =>
        rw [hg] at hs
        cases hs
        subst hcd
        exact noTBD_assign c _ vs (by decide) hwfd hd_no
  rw [hout]
  exact noTBD_reindex s _ hs_no

/-- C6: no row of a CleanDataset returned by `parse_kor_measurements` has
`SERIAL_NUMBER` equal to the sentinel placeholder `"TBD"`. -/
theorem C6_no_sentinel :
    ∀ (p : String → Option Nat) (lines : List String) (df : DataFrame),
      parse_kor_measurements p lines = Except.ok df →
      ∀ col, df.getCol "SERIAL_NUMBER" = some col → ∀ c ∈ col, c ≠ Cell.str "TBD" := by
  intro p lines df h col hcol c hc
  unfold parse_kor_measurements at h
  cases hbd : block_dfs lines with
  | nil =>
      rw [hbd] at h
      dsimp only at h
      cases h
      rw [show DataFrame.getCol ⟨[], []⟩ ("SERIAL_NUMBER") = none from rfl] at hcol
      exact Option.noConfusion hcol
  | cons d0 ds =>
      rw [hbd] at h
      dsimp only at h
      exact clean_noTBD p _ df (concat_WF (d0 :: ds)) h col hcol c hc

/-- Witness for C6 at the concrete two-sensor input. -/
theorem C6_no_sentinel_witness : Cell.str "S1" ≠ Cell.str "TBD" :=
  C6_no_sentinel demoParse goodLines goodExpected (by rfl)
    [Cell.str "S1", Cell.str "S1", Cell.str "S2"] (by rfl) (Cell.str "S1") (by decide)
